import Mathlib

/-!
Verification development for the eve-pathologist repository.

The repository is a Rust client for the EVE ESI REST API.  Its core
(`src/models/mod.rs`) parses JSON payloads into `System` records and
aggregates them into a `Universe` index with two hash maps (by id and by
name).  This file gives a shallow embedding of that core:

* JSON values and a JSON text parser (tokeniser plus a shift-reduce
  parser), standing in for `serde_json::from_slice`;
* the `System` record and its decoders (`System.parse_ids`,
  `System.parse`, mirroring the derived `Deserialize` impl);
* the `Universe` aggregate with `new`, `fill_system_info`,
  `get_system_by_name`, `get_system_by_id` and `fetch_universe`, where
  the HTTP collaborator (`esi::systems`) is abstracted as a pair of
  fallible operations and the `eprintln!` diagnostics are modelled as an
  explicit log of the reported errors.

Rust `HashMap` is modelled as an association list whose `insert`
replaces the value of an existing key in place, which preserves exactly
the observable behaviour used by the source (lookup, replacement on
duplicate keys, entry count).
-/

/-- A JSON number as `serde_json` classifies it while parsing: a token
without fraction or exponent is an integer (`i64`/`u64`), any other
numeric token is a float.  A float is kept exactly as
`mantissa * 10 ^ exponent`, which is enough structure for every claim
(no claim depends on IEEE rounding). -/
inductive JNum where
  | int (i : Int)
  | float (mantissa : Int) (exponent : Int)
deriving DecidableEq

/-- JSON values. -/
inductive Json where
  | null
  | bool (b : Bool)
  | num (n : JNum)
  | str (s : String)
  | arr (elems : List Json)
  | obj (fields : List (String × Json))

/-- The `Position` struct of `src/models/mod.rs`: the `x`, `y`, `z`
coordinates of a system (Rust `f64`, modelled as exact JSON numbers). -/
structure Position where
  x : JNum
  y : JNum
  z : JNum
deriving DecidableEq

/-- The `System` struct of `src/models/mod.rs`. -/
structure System where
  system_id : Nat
  name : String
  position : Position
  security_status : JNum
  stargates : List Nat
deriving DecidableEq

/-- The `UniverseError` enum of `src/models/mod.rs`. -/
inductive UniverseError where
  | SystemNameNotFound (name : String)
  | SystemIdNotFound (id : Nat)
deriving DecidableEq

/-- Association-list model of `std::collections::HashMap`: `insert`
replaces the value stored under an existing key, otherwise appends a new
entry. -/
def insertKV {α β : Type} [DecidableEq α] : List (α × β) → α → β → List (α × β)
  | [], k, v => [(k, v)]
  | (k', v') :: rest, k, v =>
    if k' = k then (k, v) :: rest else (k', v') :: insertKV rest k v

/-- Association-list model of `HashMap::get`. -/
def lookupKV {α β : Type} [DecidableEq α] : List (α × β) → α → Option β
  | [], _ => none
  | (k', v) :: rest, k => if k' = k then some v else lookupKV rest k

/-- The `Universe` struct of `src/models/mod.rs`.  Both maps store the
`System` value itself; the `Rc<Box<System>>` sharing of the source means
both maps hold the same record, which the pure embedding renders as both
maps holding equal values. -/
structure Universe where
  system_count : Nat
  systems_by_id : List (Nat × System)
  systems_by_name : List (String × System)
deriving DecidableEq

/-- `Universe::new`. -/
def Universe.new : Universe :=
  { system_count := 0, systems_by_id := [], systems_by_name := [] }

/-- `Universe::fill_system_info`: insert the system into both maps (the
same record under its name and under its id) and bump `system_count`. -/
def Universe.fill_system_info (u : Universe) (system : System) : Universe :=
  { system_count := u.system_count + 1,
    systems_by_id := insertKV u.systems_by_id system.system_id system,
    systems_by_name := insertKV u.systems_by_name system.name system }

/-- `Universe::get_system_by_name`. -/
def Universe.get_system_by_name (u : Universe) (name : String) :
    Except UniverseError System :=
  match lookupKV u.systems_by_name name with
  | some system => .ok system
  | none => .error (.SystemNameNotFound name)

/-- `Universe::get_system_by_id`. -/
def Universe.get_system_by_id (u : Universe) (id : Nat) :
    Except UniverseError System :=
  match lookupKV u.systems_by_id id with
  | some system => .ok system
  | none => .error (.SystemIdNotFound id)

/-- The `esi::systems` collaborator as `Universe::fetch_universe` uses
it: the hyper client together with the two fetching operations, each of
which either yields a value or fails with an error (`Box<Error>`,
abstracted to a type `ε`). -/
structure EsiClient (ε : Type) where
  fetch_all_ids : Except ε (List Nat)
  fetch_system_info : Nat → Except ε System

/-- One step of the `for_each` loop in `Universe::fetch_universe`: a
successful fetch is inserted, a failed fetch is reported (appended to
the diagnostics log, modelling `eprintln!`) and skipped. -/
def fetchStep {ε : Type} (client : EsiClient ε)
    (acc : Universe × List ε) (system_id : Nat) : Universe × List ε :=
  match client.fetch_system_info system_id with
  | .ok system => (acc.1.fill_system_info system, acc.2)
  | .error e => (acc.1, acc.2 ++ [e])

/-- `Universe::fetch_universe`: fetch all ids (propagating a failure),
then fold the per-id fetches over a fresh universe.  The second
component of the result is the list of diagnostics emitted. -/
def Universe.fetch_universe {ε : Type} (client : EsiClient ε) :
    Except ε (Universe × List ε) :=
  match client.fetch_all_ids with
  | .error e => .error e
  | .ok system_ids => .ok (system_ids.foldl (fetchStep client) (Universe.new, []))

/-- `Except.isOk`, named locally to keep the file self-contained. -/
def isOkE {ε α : Type} : Except ε α → Bool
  | .ok _ => true
  | .error _ => false

/-- `Except.toOption`, named locally to keep the file self-contained. -/
def exOk? {ε α : Type} : Except ε α → Option α
  | .ok a => some a
  | .error _ => none

/-- Tokens of the JSON lexer. -/
inductive Token where
  | lbrack | rbrack | lbrace | rbrace | comma | colon
  | str (s : String)
  | num (n : JNum)
  | tru | fls | nul
deriving DecidableEq

/-- Whitespace accepted between JSON tokens. -/
def isWs (c : Char) : Bool :=
  c = ' ' || c = '\n' || c = '\t' || c = '\r'

/-- Decimal digit value of a character, if it is a digit. -/
def digitVal? (c : Char) : Option Nat :=
  if '0' ≤ c ∧ c ≤ '9' then some (c.toNat - 48) else none

/-- Hexadecimal digit value of a character, if it is a hex digit. -/
def hexVal? (c : Char) : Option Nat :=
  if '0' ≤ c ∧ c ≤ '9' then some (c.toNat - 48)
  else if 'a' ≤ c ∧ c ≤ 'f' then some (c.toNat - 87)
  else if 'A' ≤ c ∧ c ≤ 'F' then some (c.toNat - 55)
  else none

/-- Read a run of decimal digits, returning its value, its length and
the remaining input. -/
def parseDigits : List Char → Nat → Nat → Nat × Nat × List Char
  | [], acc, cnt => (acc, cnt, [])
  | c :: rest, acc, cnt =>
    match digitVal? c with
    | some d => parseDigits rest (acc * 10 + d) (cnt + 1)
    | none => (acc, cnt, c :: rest)

/-- Apply an optional leading minus sign to a natural number. -/
def intSign (neg : Bool) (n : Nat) : Int :=
  if neg then -(n : Int) else (n : Int)

/-- Read the exponent part of a number token (after the `e`). -/
def parseExp (mant baseExp : Int) (cs : List Char) :
    Except String (JNum × List Char) :=
  let signed : Int × List Char :=
    match cs with
    | '+' :: rest => (1, rest)
    | '-' :: rest => (-1, rest)
    | _ => (1, cs)
  match parseDigits signed.2 0 0 with
  | (ev, ec, rest) =>
    if ec = 0 then .error "expected exponent digits"
    else .ok (JNum.float mant (baseExp + signed.1 * (ev : Int)), rest)

/-- Read a number token (after an optional leading minus sign, recorded
in `neg`).  A token without fraction or exponent is an integer; any
other numeric token is a float, as in `serde_json`. -/
def parseNumBody (neg : Bool) (cs : List Char) :
    Except String (JNum × List Char) :=
  match parseDigits cs 0 0 with
  | (ip, ic, rest1) =>
    if ic = 0 then .error "expected digits"
    else
      match rest1 with
      | '.' :: rest2 =>
        match parseDigits rest2 0 0 with
        | (fp, fc, rest3) =>
          if fc = 0 then .error "expected fraction digits"
          else
            let mant := intSign neg (ip * 10 ^ fc + fp)
            match rest3 with
            | 'e' :: rest4 => parseExp mant (-(fc : Int)) rest4
            | 'E' :: rest4 => parseExp mant (-(fc : Int)) rest4
            | _ => .ok (JNum.float mant (-(fc : Int)), rest3)
      | 'e' :: rest2 => parseExp (intSign neg ip) 0 rest2
      | 'E' :: rest2 => parseExp (intSign neg ip) 0 rest2
      | _ => .ok (JNum.int (intSign neg ip), rest1)

/-- Read the body of a string token (after the opening quote),
accumulating the characters seen so far in reverse. -/
def parseStringChars : Nat → List Char → List Char → Except String (String × List Char)
  | 0, _, _ => .error "out of fuel"
  | _ + 1, [], _ => .error "unterminated string"
  | fuel + 1, c :: rest, acc =>
    if c = '"' then .ok (String.mk acc.reverse, rest)
    else if c = '\\' then
      match rest with
      | [] => .error "unterminated escape"
      | e :: rest2 =>
        if e = '"' then parseStringChars fuel rest2 ('"' :: acc)
        else if e = '\\' then parseStringChars fuel rest2 ('\\' :: acc)
        else if e = '/' then parseStringChars fuel rest2 ('/' :: acc)
        else if e = 'n' then parseStringChars fuel rest2 ('\n' :: acc)
        else if e = 't' then parseStringChars fuel rest2 ('\t' :: acc)
        else if e = 'r' then parseStringChars fuel rest2 ('\r' :: acc)
        else if e = 'b' then parseStringChars fuel rest2 (Char.ofNat 8 :: acc)
        else if e = 'f' then parseStringChars fuel rest2 (Char.ofNat 12 :: acc)
        else if e = 'u' then
          match rest2 with
          | h1 :: h2 :: h3 :: h4 :: rest3 =>
            match hexVal? h1, hexVal? h2, hexVal? h3, hexVal? h4 with
            | some a, some b, some c2, some d =>
              parseStringChars fuel rest3
                (Char.ofNat (((a * 16 + b) * 16 + c2) * 16 + d) :: acc)
            | _, _, _, _ => .error "bad unicode escape"
          | _ => .error "bad unicode escape"
        else .error "unknown escape"
    else parseStringChars fuel rest (c :: acc)

/-- Prepend a token to a tokenisation result. -/
def consTok (t : Token) : Except String (List Token) → Except String (List Token)
  | .ok ts => .ok (t :: ts)
  | .error e => .error e

/-- The JSON lexer.  `fuel` is at least the input length plus one, and
every step consumes at least one character, so the fuel never runs out
on the initial call from `parseJsonText`. -/
def tokenize : Nat → List Char → Except String (List Token)
  | 0, _ => .error "out of fuel"
  | _ + 1, [] => .ok []
  | fuel + 1, c :: rest =>
    if isWs c then tokenize fuel rest
    else if c = '[' then consTok .lbrack (tokenize fuel rest)
    else if c = ']' then consTok .rbrack (tokenize fuel rest)
    else if c = '\x7b' then consTok .lbrace (tokenize fuel rest)
    else if c = '\x7d' then consTok .rbrace (tokenize fuel rest)
    else if c = ',' then consTok .comma (tokenize fuel rest)
    else if c = ':' then consTok .colon (tokenize fuel rest)
    else if c = '"' then
      match parseStringChars (rest.length + 1) rest [] with
      | .ok (s, rest2) => consTok (.str s) (tokenize fuel rest2)
      | .error e => .error e
    else if c = '-' then
      match parseNumBody true rest with
      | .ok (n, rest2) => consTok (.num n) (tokenize fuel rest2)
      | .error e => .error e
    else if (digitVal? c).isSome then
      match parseNumBody false (c :: rest) with
      | .ok (n, rest2) => consTok (.num n) (tokenize fuel rest2)
      | .error e => .error e
    else if c = 't' then
      match rest with
      | 'r' :: 'u' :: 'e' :: rest2 => consTok .tru (tokenize fuel rest2)
      | _ => .error "unexpected token"
    else if c = 'f' then
      match rest with
      | 'a' :: 'l' :: 's' :: 'e' :: rest2 => consTok .fls (tokenize fuel rest2)
      | _ => .error "unexpected token"
    else if c = 'n' then
      match rest with
      | 'u' :: 'l' :: 'l' :: rest2 => consTok .nul (tokenize fuel rest2)
      | _ => .error "unexpected token"
    else .error "unexpected character"

/-- Stack frames of the shift-reduce JSON parser: a partially built
array, a partially built object awaiting a key, or a partially built
object awaiting the value of `key`. -/
inductive Frame where
  | arrF (acc : List Json)
  | objF (acc : List (String × Json))
  | objV (acc : List (String × Json)) (key : String)

/-- States of the shift-reduce JSON parser. -/
inductive PState where
  | pvalue
  | pkey
  | pcolon (key : String)
  | phave (v : Json)

/-- The shift-reduce JSON parser over the token list.  Every recursive
call consumes exactly one token. -/
def parseToks : List Token → List Frame → PState → Except String Json
  | toks, stack, .phave v =>
    match stack, toks with
    | [], [] => .ok v
    | [], _ => .error "trailing tokens"
    | .arrF acc :: stack2, .comma :: rest =>
      parseToks rest (.arrF (acc ++ [v]) :: stack2) .pvalue
    | .arrF acc :: stack2, .rbrack :: rest =>
      parseToks rest stack2 (.phave (.arr (acc ++ [v])))
    | .arrF _ :: _, _ => .error "expected comma or closing bracket"
    | .objV acc key :: stack2, .comma :: rest =>
      parseToks rest (.objF (acc ++ [(key, v)]) :: stack2) .pkey
    | .objV acc key :: stack2, .rbrace :: rest =>
      parseToks rest stack2 (.phave (.obj (acc ++ [(key, v)])))
    | .objV _ _ :: _, _ => .error "expected comma or closing brace"
    | .objF _ :: _, _ => .error "parser state error"
  | toks, stack, .pvalue =>
    match toks with
    | [] => .error "unexpected end of input"
    | .num n :: rest => parseToks rest stack (.phave (.num n))
    | .str s :: rest => parseToks rest stack (.phave (.str s))
    | .tru :: rest => parseToks rest stack (.phave (.bool true))
    | .fls :: rest => parseToks rest stack (.phave (.bool false))
    | .nul :: rest => parseToks rest stack (.phave .null)
    | .lbrack :: rest => parseToks rest (.arrF [] :: stack) .pvalue
    | .lbrace :: rest => parseToks rest (.objF [] :: stack) .pkey
    | .rbrack :: rest =>
      match stack with
      | .arrF [] :: stack2 => parseToks rest stack2 (.phave (.arr []))
      | _ => .error "unexpected closing bracket"
    | _ => .error "expected a value"
  | toks, stack, .pkey =>
    match stack, toks with
    | .objF acc :: stack2, .str key :: rest =>
      parseToks rest (.objF acc :: stack2) (.pcolon key)
    | .objF [] :: stack2, .rbrace :: rest =>
      parseToks rest stack2 (.phave (.obj []))
    | _, _ => .error "expected object key"
  | toks, stack, .pcolon key =>
    match stack, toks with
    | .objF acc :: stack2, .colon :: rest =>
      parseToks rest (.objV acc key :: stack2) .pvalue
    | _, _ => .error "expected colon"

/-- The JSON text parser, standing in for the parsing stage of
`serde_json::from_slice`: tokenise the whole buffer, then parse the
token list; any leftover input is an error (all-or-nothing). -/
def parseJsonText (s : String) : Except String Json :=
  match tokenize (s.toList.length + 1) s.toList with
  | .error e => .error e
  | .ok toks => parseToks toks [] .pvalue

/-- Deserialize a `usize`: only a non-negative integer token is
accepted (a float or any other JSON value is a type error, as in
`serde_json`). -/
def decodeUsize : Json → Except String Nat
  | .num (.int (.ofNat n)) => .ok n
  | _ => .error "invalid type: expected unsigned integer"

/-- Deserialize a `String`. -/
def decodeString : Json → Except String String
  | .str s => .ok s
  | _ => .error "invalid type: expected string"

/-- Deserialize an `f64`/`f32` field: any JSON number is accepted. -/
def decodeJNum : Json → Except String JNum
  | .num n => .ok n
  | _ => .error "invalid type: expected number"

/-- Field loop of the derived `Deserialize` impl for `Position`: walk
the object's fields, fill the slot of each known field (a second
occurrence is a duplicate-field error), ignore unknown fields, and
require every slot to be filled at the end. -/
def decodePositionFields :
    Option JNum → Option JNum → Option JNum → List (String × Json) →
    Except String Position
  | some x, some y, some z, [] => .ok ⟨x, y, z⟩
  | _, _, _, [] => .error "missing field in position"
  | ox, oy, oz, (k, v) :: rest =>
    if k = "x" then
      match ox with
      | some _ => .error "duplicate field x"
      | none =>
        match decodeJNum v with
        | .ok n => decodePositionFields (some n) oy oz rest
        | .error e => .error e
    else if k = "y" then
      match oy with
      | some _ => .error "duplicate field y"
      | none =>
        match decodeJNum v with
        | .ok n => decodePositionFields ox (some n) oz rest
        | .error e => .error e
    else if k = "z" then
      match oz with
      | some _ => .error "duplicate field z"
      | none =>
        match decodeJNum v with
        | .ok n => decodePositionFields ox oy (some n) rest
        | .error e => .error e
    else decodePositionFields ox oy oz rest

/-- Deserialize a `Position` from a JSON value. -/
def decodePosition : Json → Except String Position
  | .obj fields => decodePositionFields none none none fields
  | _ => .error "invalid type: expected position object"

/-- Deserialize the elements of a `Vec<usize>`. -/
def decodeUsizeElems : List Json → Except String (List Nat)
  | [] => .ok []
  | x :: rest =>
    match decodeUsize x with
    | .ok n =>
      match decodeUsizeElems rest with
      | .ok ns => .ok (n :: ns)
      | .error e => .error e
    | .error e => .error e

/-- Deserialize a `Vec<usize>` from a JSON value. -/
def decodeUsizeList : Json → Except String (List Nat)
  | .arr xs => decodeUsizeElems xs
  | _ => .error "invalid type: expected array of integers"

/-- The five field slots of the derived `Deserialize` impl for
`System`, all empty before the field loop starts. -/
structure Slots where
  sid : Option Nat
  nm : Option String
  pos : Option Position
  sec : Option JNum
  sg : Option (List Nat)

/-- Fill one slot of the derived impl: a second occurrence of the field
is a duplicate-field error (checked before the value is used, as in
serde), and a wrong-typed value propagates its decode error. -/
def putSlot {α : Type} (fieldName : String) (slot : Option α)
    (r : Except String α) : Except String (Option α) :=
  match slot, r with
  | some _, _ => .error ("duplicate field " ++ fieldName)
  | none, .ok v => .ok (some v)
  | none, .error e => .error e

/-- Process one field of the object: fill the matching known slot, or
ignore the field when its key is not one of the five known keys. -/
def stepField (σ : Slots) (k : String) (v : Json) : Except String Slots :=
  if k = "system_id" then
    match putSlot "system_id" σ.sid (decodeUsize v) with
    | .ok o => .ok { σ with sid := o }
    | .error e => .error e
  else if k = "name" then
    match putSlot "name" σ.nm (decodeString v) with
    | .ok o => .ok { σ with nm := o }
    | .error e => .error e
  else if k = "position" then
    match putSlot "position" σ.pos (decodePosition v) with
    | .ok o => .ok { σ with pos := o }
    | .error e => .error e
  else if k = "security_status" then
    match putSlot "security_status" σ.sec (decodeJNum v) with
    | .ok o => .ok { σ with sec := o }
    | .error e => .error e
  else if k = "stargates" then
    match putSlot "stargates" σ.sg (decodeUsizeList v) with
    | .ok o => .ok { σ with sg := o }
    | .error e => .error e
  else .ok σ

/-- Field loop of the derived `Deserialize` impl for `System`
(`#[derive(Deserialize)]` in `src/models/mod.rs`): walk the object's
fields in order, fill the slot of each known field, ignore unknown
fields, and require every slot to be filled at the end (a missing
required field is an error). -/
def decodeSystemFields (σ : Slots) : List (String × Json) → Except String System
  | [] =>
    match σ.sid, σ.nm, σ.pos, σ.sec, σ.sg with
    | some sid, some nm, some pos, some sec, some sg =>
      .ok ⟨sid, nm, pos, sec, sg⟩
    | _, _, _, _, _ => .error "missing field"
  | (k, v) :: rest =>
    match stepField σ k v with
    | .ok σ2 => decodeSystemFields σ2 rest
    | .error e => .error e

/-- Deserialize a `System` from a JSON value. -/
def decodeSystem : Json → Except String System
  | .obj fields => decodeSystemFields ⟨none, none, none, none, none⟩ fields
  | _ => .error "invalid type: expected object"

/-- `System::parse_ids` of `src/models/mod.rs`:
`serde_json::from_slice::<Vec<usize>>` on the buffer. -/
def System.parse_ids (ids_string : String) : Except String (List Nat) :=
  match parseJsonText ids_string with
  | .ok j => decodeUsizeList j
  | .error e => .error e

/-- `System::parse` of `src/models/mod.rs`:
`serde_json::from_slice::<System>` on the buffer. -/
def System.parse (json : String) : Except String System :=
  match parseJsonText json with
  | .ok j => decodeSystem j
  | .error e => .error e

/-- Modelled from the spec: `Construct(id, name)` builds a `System`
directly from an id and a name with no failure mode (the constructor
used by the minimal-schema revisions and the tests; the revision under
`src/` carries the rich schema only, so the remaining fields take the
degenerate defaults the spec prescribes for the minimal schema). -/
def System.construct (id : Nat) (name : String) : System :=
  { system_id := id, name := name,
    position := { x := .int 0, y := .int 0, z := .int 0 },
    security_status := .int 0, stargates := [] }

/-- Modelled from the spec: encoding a `System` back to a JSON document
(the revision under `src/` derives only `Deserialize`; the encoder is
specified by the round-trip property, producing an object holding the
five struct fields). -/
def System.encode (s : System) : Json :=
  .obj [("system_id", .num (.int (s.system_id : Int))),
        ("name", .str s.name),
        ("position", .obj [("x", .num s.position.x), ("y", .num s.position.y),
                           ("z", .num s.position.z)]),
        ("security_status", .num s.security_status),
        ("stargates", .arr (s.stargates.map fun n => .num (.int (n : Int))))]

/-- Folding `fill_system_info` over the systems fetched for `ids` (the
universe built by a run of `fetch_universe` where every id in `ids` is
fetched successfully, `g i` being the system fetched for id `i`). -/
def buildU (g : Nat → System) (u : Universe) (ids : List Nat) : Universe :=
  ids.foldl (fun u i => u.fill_system_info (g i)) u

/-- A concrete system used to instantiate the universally quantified
theorems below on concrete inputs. -/
def sysAmy : System := System.construct 30005311 "Amygnon"

/-- A concrete per-id family of systems (distinct ids, distinct names)
used to instantiate the aggregation theorems on concrete inputs. -/
def wSysOf (i : Nat) : System :=
  System.construct i (if i = 1 then "a" else "b")

/-- A concrete one-entry universe used to instantiate the collision
theorems on concrete inputs. -/
def uAmy : Universe := Universe.new.fill_system_info sysAmy

/-- A concrete system colliding with `sysAmy` on the id. -/
def sysOther : System := System.construct 30005311 "Other"

/-- A concrete system colliding with `sysAmy` on the name only. -/
def sysDup : System := System.construct 42 "Amygnon"

/-- A rich wire payload in the shape of the real ESI response recorded
in the source's tests: the five modelled fields together with the
unmodelled sibling fields `star_id`, `constellation_id`, `planets`,
`security_class` and `stations`. -/
def amyPayload : String :=
  "\x7b\"star_id\":40335883,\"system_id\":30005311,\"name\":\"Amygnon\",\"position\":\x7b\"x\":-2.5e+17,\"y\":3.0,\"z\":0.5\x7d,\"security_status\":0.5,\"constellation_id\":20000777,\"planets\":[\x7b\"planet_id\":1\x7d],\"security_class\":\"D1\",\"stargates\":[50007433],\"stations\":[60011203]\x7d"

/-- A payload missing the required fields `position`,
`security_status` and `stargates`. -/
def missingPayload : String := "\x7b\"system_id\":1,\"name\":\"X\"\x7d"

/-- A payload whose `system_id` field has the wrong type. -/
def wrongTypePayload : String :=
  "\x7b\"system_id\":\"oops\",\"name\":\"X\",\"position\":\x7b\"x\":1,\"y\":2,\"z\":3\x7d,\"security_status\":0,\"stargates\":[]\x7d"

/-- A concrete well-formed field list used to instantiate the decoder
theorems on concrete inputs. -/
def okFields : List (String × Json) :=
  [("system_id", .num (.int (Int.ofNat 1))), ("name", .str "X"),
   ("position", .obj [("x", .num (.int 0)), ("y", .num (.int 0)),
                      ("z", .num (.int 0))]),
   ("security_status", .num (.int 0)), ("stargates", .arr [])]

theorem lookupKV_insertKV_self {α β : Type} [DecidableEq α]
    (m : List (α × β)) (k : α) (v : β) :
    lookupKV (insertKV m k v) k = some v := by
  induction m with
  | nil => simp [insertKV, lookupKV]
  | cons p rest ih =>
    obtain ⟨k', v'⟩ := p
    by_cases h : k' = k <;> simp [insertKV, lookupKV, h, ih]

theorem lookupKV_insertKV_ne {α β : Type} [DecidableEq α]
    (m : List (α × β)) (k k₀ : α) (v : β) (h : k₀ ≠ k) :
    lookupKV (insertKV m k v) k₀ = lookupKV m k₀ := by
  induction m with
  | nil => simp [insertKV, lookupKV, Ne.symm h]
  | cons p rest ih =>
    obtain ⟨k', v'⟩ := p
    by_cases hk : k' = k
    · subst hk
      simp [insertKV, lookupKV, Ne.symm h]
    · by_cases hk0 : k' = k₀ <;> simp [insertKV, lookupKV, hk, hk0, ih, h]

theorem length_insertKV_present {α β : Type} [DecidableEq α]
    (m : List (α × β)) (k : α) (v t : β) (h : lookupKV m k = some t) :
    (insertKV m k v).length = m.length := by
  induction m with
  | nil => simp [lookupKV] at h
  | cons p rest ih =>
    obtain ⟨k', v'⟩ := p
    by_cases hk : k' = k
    · simp [insertKV, hk]
    · simp [lookupKV, hk] at h
      simp [insertKV, hk, ih h]

theorem isSome_lookupKV_insertKV {α β : Type} [DecidableEq α]
    (m : List (α × β)) (k k₀ : α) (v : β) :
    (lookupKV (insertKV m k v) k₀).isSome ↔
      k₀ = k ∨ (lookupKV m k₀).isSome := by
  by_cases h : k₀ = k
  · subst h
    simp [lookupKV_insertKV_self]
  · simp [lookupKV_insertKV_ne m k k₀ v h, h]

theorem buildU_nil (g : Nat → System) (u : Universe) : buildU g u [] = u := rfl

theorem buildU_cons (g : Nat → System) (u : Universe) (j : Nat) (rest : List Nat) :
    buildU g u (j :: rest) = buildU g (u.fill_system_info (g j)) rest := rfl

theorem system_count_foldl_fill (l : List System) (u : Universe) :
    (l.foldl Universe.fill_system_info u).system_count =
      u.system_count + l.length := by
  induction l generalizing u with
  | nil => simp
  | cons s rest ih =>
    rw [List.foldl_cons, ih]
    simp [Universe.fill_system_info]
    omega

theorem buildU_count (g : Nat → System) (ids : List Nat) (u : Universe) :
    (buildU g u ids).system_count = u.system_count + ids.length := by
  induction ids generalizing u with
  | nil => simp [buildU]
  | cons j rest ih =>
    rw [buildU_cons, ih]
    simp [Universe.fill_system_info]
    omega

theorem foldl_fetchStep_all_ok {ε : Type} (client : EsiClient ε) (g : Nat → System) :
    ∀ (ids : List Nat) (acc : Universe × List ε),
      (∀ i ∈ ids, client.fetch_system_info i = .ok (g i)) →
      ids.foldl (fetchStep client) acc = (buildU g acc.1 ids, acc.2) := by
  intro ids
  induction ids with
  | nil => intro acc _; rfl
  | cons j rest ih =>
    intro acc h
    have hj := h j (List.mem_cons_self j rest)
    rw [List.foldl_cons, buildU_cons]
    have hstep : fetchStep client acc j = (acc.1.fill_system_info (g j), acc.2) := by
      simp [fetchStep, hj]
    rw [hstep]
    exact ih (acc.1.fill_system_info (g j), acc.2)
      (fun i hi => h i (List.mem_cons_of_mem _ hi))

theorem lookupKV_buildU_id_ne (g : Nat → System) (ids : List Nat) (u : Universe)
    (k : Nat) (h : ∀ i ∈ ids, (g i).system_id ≠ k) :
    lookupKV (buildU g u ids).systems_by_id k = lookupKV u.systems_by_id k := by
  induction ids generalizing u with
  | nil => rfl
  | cons j rest ih =>
    rw [buildU_cons, ih _ (fun i hi => h i (List.mem_cons_of_mem _ hi))]
    exact lookupKV_insertKV_ne _ _ _ _
      (fun hk => h j (List.mem_cons_self j rest) hk.symm)

theorem lookupKV_buildU_name_ne (g : Nat → System) (ids : List Nat) (u : Universe)
    (n : String) (h : ∀ i ∈ ids, (g i).name ≠ n) :
    lookupKV (buildU g u ids).systems_by_name n = lookupKV u.systems_by_name n := by
  induction ids generalizing u with
  | nil => rfl
  | cons j rest ih =>
    rw [buildU_cons, ih _ (fun i hi => h i (List.mem_cons_of_mem _ hi))]
    exact lookupKV_insertKV_ne _ _ _ _
      (fun hk => h j (List.mem_cons_self j rest) hk.symm)

theorem isSome_lookupKV_buildU_id (g : Nat → System) (ids : List Nat)
    (u : Universe) (k : Nat) :
    (lookupKV (buildU g u ids).systems_by_id k).isSome ↔
      (∃ i ∈ ids, (g i).system_id = k) ∨ (lookupKV u.systems_by_id k).isSome := by
  induction ids generalizing u with
  | nil => simp [buildU]
  | cons j rest ih =>
    rw [buildU_cons]
    rw [ih]
    simp only [Universe.fill_system_info, isSome_lookupKV_insertKV, List.mem_cons]
    constructor
    · rintro (⟨i, hi, hk⟩ | (hk | hs))
      · exact Or.inl ⟨i, Or.inr hi, hk⟩
      · exact Or.inl ⟨j, Or.inl rfl, hk.symm⟩
      · exact Or.inr hs
    · rintro (⟨i, (rfl | hi), hk⟩ | hs)
      · exact Or.inr (Or.inl hk.symm)
      · exact Or.inl ⟨i, hi, hk⟩
      · exact Or.inr (Or.inr hs)

theorem isSome_lookupKV_buildU_name (g : Nat → System) (ids : List Nat)
    (u : Universe) (n : String) :
    (lookupKV (buildU g u ids).systems_by_name n).isSome ↔
      (∃ i ∈ ids, (g i).name = n) ∨ (lookupKV u.systems_by_name n).isSome := by
  induction ids generalizing u with
  | nil => simp [buildU]
  | cons j rest ih =>
    rw [buildU_cons]
    rw [ih]
    simp only [Universe.fill_system_info, isSome_lookupKV_insertKV, List.mem_cons]
    constructor
    · rintro (⟨i, hi, hk⟩ | (hk | hs))
      · exact Or.inl ⟨i, Or.inr hi, hk⟩
      · exact Or.inl ⟨j, Or.inl rfl, hk.symm⟩
      · exact Or.inr hs
    · rintro (⟨i, (rfl | hi), hk⟩ | hs)
      · exact Or.inr (Or.inl hk.symm)
      · exact Or.inl ⟨i, hi, hk⟩
      · exact Or.inr (Or.inr hs)

theorem lookupKV_buildU_id_mem (g : Nat → System) (ids : List Nat) (u : Universe)
    (hid : ∀ i ∈ ids, (g i).system_id = i) (hnodup : ids.Nodup) :
    ∀ i ∈ ids, lookupKV (buildU g u ids).systems_by_id i = some (g i) := by
  induction ids generalizing u with
  | nil => intro i hi; cases hi
  | cons j rest ih =>
    intro i hi
    rcases List.mem_cons.mp hi with rfl | hmem
    · rw [buildU_cons]
      rw [lookupKV_buildU_id_ne g rest _ i
        (fun x hx hcontra => by
          have hx2 := hid x (List.mem_cons_of_mem _ hx)
          rw [hx2] at hcontra
          exact (List.nodup_cons.mp hnodup).1 (hcontra ▸ hx))]
      have hj := hid i (List.mem_cons_self i rest)
      simp only [Universe.fill_system_info, hj]
      exact lookupKV_insertKV_self _ _ _
    · rw [buildU_cons]
      exact ih _ (fun x hx => hid x (List.mem_cons_of_mem _ hx))
        (List.nodup_cons.mp hnodup).2 i hmem

theorem lookupKV_buildU_name_mem (g : Nat → System) (ids : List Nat) (u : Universe)
    (hnames : (ids.map fun i => (g i).name).Nodup) :
    ∀ i ∈ ids, lookupKV (buildU g u ids).systems_by_name (g i).name = some (g i) := by
  induction ids generalizing u with
  | nil => intro i hi; cases hi
  | cons j rest ih =>
    rw [List.map_cons, List.nodup_cons] at hnames
    intro i hi
    rcases List.mem_cons.mp hi with rfl | hmem
    · rw [buildU_cons]
      rw [lookupKV_buildU_name_ne g rest _ (g i).name
        (fun x hx hcontra =>
          hnames.1 (hcontra ▸ List.mem_map_of_mem (fun i => (g i).name) hx))]
      simpa [Universe.fill_system_info] using
        lookupKV_insertKV_self u.systems_by_name (g i).name (g i)
    · rw [buildU_cons]
      exact ih _ hnames.2 i hmem

/-- Claim C3: if the fetch-all-ids operation fails, `fetch_universe`
fails with exactly that error, and the result does not depend on the
per-id fetch operation at all (no per-id fetch is attempted, no
insertion occurs, no partial universe is returned). -/
theorem fetch_universe_id_list_failure_spec {ε : Type} (e : ε)
    (fsi fsi₂ : Nat → Except ε System) :
    Universe.fetch_universe ⟨.error e, fsi⟩ = .error e ∧
    Universe.fetch_universe ⟨.error e, fsi⟩ =
      Universe.fetch_universe ⟨.error e, fsi₂⟩ :=
  ⟨rfl, rfl⟩

/-- Claim C4: `fill_system_info` stores the system under its name in
`systems_by_name` and under its id in `systems_by_id` (the same record
in both maps) and increments `system_count` by exactly one; on a fresh
index the inserted system is retrievable through both getters and the
count is 1; after any sequence of inserts the count equals the number
of inserts performed. -/
theorem fill_system_info_insert_spec (u : Universe) (s : System) (l : List System) :
    (u.fill_system_info s).system_count = u.system_count + 1 ∧
    lookupKV (u.fill_system_info s).systems_by_name s.name = some s ∧
    lookupKV (u.fill_system_info s).systems_by_id s.system_id = some s ∧
    (Universe.new.fill_system_info s).get_system_by_id s.system_id = .ok s ∧
    (Universe.new.fill_system_info s).get_system_by_name s.name = .ok s ∧
    (Universe.new.fill_system_info s).system_count = 1 ∧
    (l.foldl Universe.fill_system_info Universe.new).system_count = l.length := by
  refine ⟨rfl, ?_, ?_, ?_, ?_, rfl, ?_⟩
  · exact lookupKV_insertKV_self _ _ _
  · exact lookupKV_insertKV_self _ _ _
  · simp [Universe.get_system_by_id, Universe.fill_system_info, Universe.new,
      insertKV, lookupKV]
  · simp [Universe.get_system_by_name, Universe.fill_system_info, Universe.new,
      insertKV, lookupKV]
  · simpa [Universe.new] using system_count_foldl_fill l Universe.new

/-- Claim C6: `get_system_by_name` returns exactly the system stored
under the name in `systems_by_name` and fails with
`SystemNameNotFound(name)` exactly when the name is absent;
`get_system_by_id` behaves likewise over `systems_by_id` with
`SystemIdNotFound(id)`. -/
theorem get_system_lookup_spec (u : Universe) (name : String) (id : Nat) :
    (∀ s, u.get_system_by_name name = .ok s ↔
      lookupKV u.systems_by_name name = some s) ∧
    (u.get_system_by_name name = .error (.SystemNameNotFound name) ↔
      lookupKV u.systems_by_name name = none) ∧
    (∀ s, u.get_system_by_id id = .ok s ↔
      lookupKV u.systems_by_id id = some s) ∧
    (u.get_system_by_id id = .error (.SystemIdNotFound id) ↔
      lookupKV u.systems_by_id id = none) := by
  refine ⟨?_, ?_, ?_, ?_⟩
  · intro s
    cases h : lookupKV u.systems_by_name name <;>
      simp [Universe.get_system_by_name, h]
  · cases h : lookupKV u.systems_by_name name <;>
      simp [Universe.get_system_by_name, h]
  · intro s
    cases h : lookupKV u.systems_by_id id <;>
      simp [Universe.get_system_by_id, h]
  · cases h : lookupKV u.systems_by_id id <;>
      simp [Universe.get_system_by_id, h]

/-- Claim C1: during `fetch_universe`, a failing per-id fetch is
reported as a diagnostic and the loop continues with the next id, the
whole operation still succeeding; in particular for the id list
`[a, b]` where fetching `a` succeeds with `sa` and fetching `b` fails
with `e`, `fetch_universe` returns `Ok`, the returned index holds
exactly the entry for `sa`, `system_count` is 1, and the diagnostics
log is exactly `[e]`. -/
theorem fetch_universe_failure_isolation_spec {ε : Type} (a b : Nat)
    (sa : System) (e : ε) (f : Nat → Except ε System)
    (ha : f a = .ok sa) (hb : f b = .error e) :
    Universe.fetch_universe ⟨.ok [a, b], f⟩ =
      .ok (Universe.new.fill_system_info sa, [e]) ∧
    (Universe.new.fill_system_info sa).system_count = 1 ∧
    (Universe.new.fill_system_info sa).systems_by_id = [(sa.system_id, sa)] ∧
    (Universe.new.fill_system_info sa).systems_by_name = [(sa.name, sa)] ∧
    ∀ (ids : List Nat) (f₂ : Nat → Except ε System),
      ∃ u log, Universe.fetch_universe ⟨.ok ids, f₂⟩ = .ok (u, log) := by
  refine ⟨?_, rfl, rfl, rfl, ?_⟩
  · simp [Universe.fetch_universe, fetchStep, ha, hb]
  · intro ids f₂
    exact ⟨_, _, rfl⟩

/-- Witness for claim C1 at a concrete client: id list `[1, 2]`,
fetching 1 succeeds with `sysAmy`, fetching 2 fails with `"boom"`. -/
theorem fetch_universe_failure_isolation_witness :
    Universe.fetch_universe
        ⟨.ok [1, 2], fun i => if i = 1 then .ok sysAmy else .error "boom"⟩ =
      .ok (Universe.new.fill_system_info sysAmy, ["boom"]) :=
  (fetch_universe_failure_isolation_spec 1 2 sysAmy "boom"
    (fun i => if i = 1 then .ok sysAmy else .error "boom") rfl rfl).1

/-- Claim C2: when the id-list fetch succeeds with `ids` and every
per-id fetch succeeds (fetching `g i` for id `i`, with `g i` carrying
id `i`), with no duplicate ids and no duplicate names,
`fetch_universe` returns an index whose `system_count` is the number of
ids, whose maps resolve every fetched id and name to the system fetched
under it, and whose key sets are exactly the fetched ids and names; no
diagnostic is emitted. -/
theorem fetch_universe_all_success_spec {ε : Type} (ids : List Nat)
    (f : Nat → Except ε System) (g : Nat → System)
    (hf : ∀ i ∈ ids, f i = .ok (g i))
    (hid : ∀ i ∈ ids, (g i).system_id = i)
    (hnodup : ids.Nodup)
    (hnames : (ids.map fun i => (g i).name).Nodup) :
    ∃ u : Universe, Universe.fetch_universe ⟨.ok ids, f⟩ = .ok (u, []) ∧
      u.system_count = ids.length ∧
      (∀ i ∈ ids, lookupKV u.systems_by_id i = some (g i) ∧
        lookupKV u.systems_by_name (g i).name = some (g i)) ∧
      (∀ k : Nat, (lookupKV u.systems_by_id k).isSome ↔ k ∈ ids) ∧
      (∀ n : String, (lookupKV u.systems_by_name n).isSome ↔
        n ∈ ids.map fun i => (g i).name) := by
  refine ⟨buildU g Universe.new ids, ?_, ?_, ?_, ?_, ?_⟩
  · rw [show Universe.fetch_universe ⟨.ok ids, f⟩ =
        .ok (ids.foldl (fetchStep ⟨.ok ids, f⟩) (Universe.new, [])) from rfl]
    rw [foldl_fetchStep_all_ok ⟨.ok ids, f⟩ g ids (Universe.new, []) hf]
  · simp [buildU_count, Universe.new]
  · intro i hi
    exact ⟨lookupKV_buildU_id_mem g ids Universe.new hid hnodup i hi,
      lookupKV_buildU_name_mem g ids Universe.new hnames i hi⟩
  · intro k
    rw [isSome_lookupKV_buildU_id]
    simp only [Universe.new, lookupKV, Option.isSome_none, Bool.false_eq_true,
      or_false]
    constructor
    · rintro ⟨i, hi, hk⟩
      rw [hid i hi] at hk
      exact hk ▸ hi
    · intro hk
      exact ⟨k, hk, hid k hk⟩
  · intro n
    rw [isSome_lookupKV_buildU_name]
    simp only [Universe.new, lookupKV, Option.isSome_none, Bool.false_eq_true,
      or_false, List.mem_map]

/-- Witness for claim C2 at a concrete client: ids `[1, 2]`, every
fetch succeeding with `wSysOf i` (distinct ids and names). -/
theorem fetch_universe_all_success_witness :
    ∃ u : Universe,
      Universe.fetch_universe (ε := String) ⟨.ok [1, 2], fun i => .ok (wSysOf i)⟩ =
        .ok (u, []) ∧
      u.system_count = [1, 2].length ∧
      (∀ i ∈ [1, 2], lookupKV u.systems_by_id i = some (wSysOf i) ∧
        lookupKV u.systems_by_name (wSysOf i).name = some (wSysOf i)) ∧
      (∀ k : Nat, (lookupKV u.systems_by_id k).isSome ↔ k ∈ [1, 2]) ∧
      (∀ n : String, (lookupKV u.systems_by_name n).isSome ↔
        n ∈ [1, 2].map fun i => (wSysOf i).name) :=
  fetch_universe_all_success_spec (ε := String) [1, 2]
    (fun i => .ok (wSysOf i)) wSysOf (fun _ _ => rfl) (by decide) (by decide)
    (by decide)

/-- Claim C5: inserting a system whose id (resp. name) is already a key
of the corresponding map silently replaces the prior entry under that
key (it is neither rejected nor appended: the entry count of that map
is unchanged) while `system_count` still increments by 1, so after such
a collision `system_count` exceeds the number of entries of the map
whose key collided (whenever the count already dominated that map's
size, as it always does for universes built by inserts). -/
theorem fill_system_info_collision_spec (u : Universe) (s : System) :
    (u.fill_system_info s).system_count = u.system_count + 1 ∧
    (∀ t, lookupKV u.systems_by_id s.system_id = some t →
      lookupKV (u.fill_system_info s).systems_by_id s.system_id = some s ∧
      (u.fill_system_info s).systems_by_id.length = u.systems_by_id.length ∧
      (u.system_count ≥ u.systems_by_id.length →
        (u.fill_system_info s).system_count >
          (u.fill_system_info s).systems_by_id.length)) ∧
    (∀ t, lookupKV u.systems_by_name s.name = some t →
      lookupKV (u.fill_system_info s).systems_by_name s.name = some s ∧
      (u.fill_system_info s).systems_by_name.length = u.systems_by_name.length ∧
      (u.system_count ≥ u.systems_by_name.length →
        (u.fill_system_info s).system_count >
          (u.fill_system_info s).systems_by_name.length)) := by
  refine ⟨rfl, ?_, ?_⟩
  · intro t ht
    have hlen := length_insertKV_present u.systems_by_id s.system_id s t ht
    refine ⟨lookupKV_insertKV_self _ _ _, hlen, ?_⟩
    intro hge
    simp only [Universe.fill_system_info] at hlen ⊢
    omega
  · intro t ht
    have hlen := length_insertKV_present u.systems_by_name s.name s t ht
    refine ⟨lookupKV_insertKV_self _ _ _, hlen, ?_⟩
    intro hge
    simp only [Universe.fill_system_info] at hlen ⊢
    omega

/-- Witness for claim C5 at a concrete input: inserting `sysOther`
(which collides on id 30005311) into the one-entry universe `uAmy`
gives `system_count` 2 over a one-entry id map, with the prior entry
replaced. -/
theorem fill_system_info_collision_witness :
    (uAmy.fill_system_info sysOther).system_count = 2 ∧
    (uAmy.fill_system_info sysOther).systems_by_id.length = 1 ∧
    (lookupKV (uAmy.fill_system_info sysOther).systems_by_id
        sysOther.system_id = some sysOther ∧
      (uAmy.fill_system_info sysOther).systems_by_id.length =
        uAmy.systems_by_id.length ∧
      (uAmy.system_count ≥ uAmy.systems_by_id.length →
        (uAmy.fill_system_info sysOther).system_count >
          (uAmy.fill_system_info sysOther).systems_by_id.length)) :=
  ⟨by decide, by decide,
    (fill_system_info_collision_spec uAmy sysOther).2.1 sysAmy rfl⟩

/-- Claim C10 (implicit): inserting a system `B` whose name equals an
already-inserted `A`'s name but whose id differs leaves the stale
record `A` reachable through `systems_by_id` while `systems_by_name`
now resolves the shared name to `B`, so the two maps no longer resolve
to the same record for that name. -/
theorem name_collision_stale_id_spec (u : Universe) (A B : System)
    (hname : B.name = A.name) (hid : B.system_id ≠ A.system_id) :
    ((u.fill_system_info A).fill_system_info B).get_system_by_name A.name =
      .ok B ∧
    ((u.fill_system_info A).fill_system_info B).get_system_by_id A.system_id =
      .ok A ∧
    B ≠ A := by
  refine ⟨?_, ?_, ?_⟩
  · rw [← hname]
    simp [Universe.get_system_by_name, Universe.fill_system_info,
      lookupKV_insertKV_self]
  · have h1 : lookupKV ((u.fill_system_info A).fill_system_info B).systems_by_id
        A.system_id = some A := by
      simp only [Universe.fill_system_info]
      rw [lookupKV_insertKV_ne _ _ _ _ (fun hc => hid hc.symm)]
      exact lookupKV_insertKV_self _ _ _
    simp [Universe.get_system_by_id, h1]
  · intro hBA
    exact hid (by rw [hBA])

/-- Witness for claim C10 at a concrete input: `sysDup` shares
`sysAmy`'s name with a different id; after both inserts the name
resolves to `sysDup` while id 30005311 still resolves to `sysAmy`. -/
theorem name_collision_stale_id_witness :
    ((Universe.new.fill_system_info sysAmy).fill_system_info
        sysDup).get_system_by_name sysAmy.name = .ok sysDup ∧
    ((Universe.new.fill_system_info sysAmy).fill_system_info
        sysDup).get_system_by_id sysAmy.system_id = .ok sysAmy ∧
    sysDup ≠ sysAmy :=
  name_collision_stale_id_spec Universe.new sysAmy sysDup rfl (by decide)

theorem decodeUsize_ok (x : Json) (n : Nat) (h : decodeUsize x = .ok n) :
    x = .num (.int (Int.ofNat n)) := by
  cases x with
  | num m =>
    cases m with
    | int i =>
      cases i with
      | ofNat k => simp [decodeUsize] at h; simp [h]
      | negSucc k => simp [decodeUsize] at h
    | float m e => simp [decodeUsize] at h
  | null => simp [decodeUsize] at h
  | bool b => simp [decodeUsize] at h
  | str s => simp [decodeUsize] at h
  | arr xs => simp [decodeUsize] at h
  | obj fs => simp [decodeUsize] at h

theorem decodeUsizeElems_ok :
    ∀ (xs : List Json) (l : List Nat), decodeUsizeElems xs = .ok l →
      xs = l.map fun n => Json.num (.int (Int.ofNat n)) := by
  intro xs
  induction xs with
  | nil =>
    intro l h
    simp only [decodeUsizeElems] at h
    cases h
    rfl
  | cons x rest ih =>
    intro l h
    simp only [decodeUsizeElems] at h
    cases hx : decodeUsize x with
    | error e => rw [hx] at h; simp at h
    | ok n =>
      rw [hx] at h
      cases hr : decodeUsizeElems rest with
      | error e => rw [hr] at h; simp at h
      | ok ns =>
        rw [hr] at h
        cases h
        simp [List.map_cons, decodeUsize_ok x n hx, ih ns hr]

theorem decodeUsizeList_ok (j : Json) (l : List Nat)
    (h : decodeUsizeList j = .ok l) :
    j = .arr (l.map fun n => Json.num (.int (Int.ofNat n))) := by
  cases j with
  | arr xs =>
    simp only [decodeUsizeList] at h
    rw [decodeUsizeElems_ok xs l h]
  | null => simp [decodeUsizeList] at h
  | bool b => simp [decodeUsizeList] at h
  | num m => simp [decodeUsizeList] at h
  | str s => simp [decodeUsizeList] at h
  | obj fs => simp [decodeUsizeList] at h

/-- Claim C7: `parse_ids` decodes a JSON array of integers into the
ordered sequence of those ids — on `"[1,2,3]"` it yields exactly
`[1, 2, 3]` — it fails on a buffer that is not valid JSON or not an
array of integers (such as `"invalid json"`), and it is all-or-nothing:
whenever it succeeds with `l`, the whole buffer was exactly the JSON
array of the integers of `l` in that order. -/
theorem parse_ids_spec :
    System.parse_ids "[1,2,3]" = .ok [1, 2, 3] ∧
    isOkE (System.parse_ids "invalid json") = false ∧
    ∀ (buf : String) (l : List Nat), System.parse_ids buf = .ok l →
      parseJsonText buf =
        .ok (.arr (l.map fun n => Json.num (.int (Int.ofNat n)))) := by
  refine ⟨rfl, rfl, ?_⟩
  intro buf l h
  simp only [System.parse_ids] at h
  cases hp : parseJsonText buf with
  | error e => rw [hp] at h; simp at h
  | ok j =>
    rw [hp] at h
    rw [decodeUsizeList_ok j l h]

/-- Witness for claim C7's all-or-nothing clause at a concrete buffer:
a successful `parse_ids` run on `"[7]"` exposes the buffer as exactly
the one-element integer array. -/
theorem parse_ids_spec_witness :
    parseJsonText "[7]" =
      .ok (.arr ([7].map fun n => Json.num (.int (Int.ofNat n)))) :=
  parse_ids_spec.2.2 "[7]" [7] rfl

/-- Claim C9: `Construct(id, name)` builds a `System` with exactly that
id and name (with no failure mode), and encoding a constructed system
and decoding the result yields a system whose `system_id` and `name`
equal the original's. -/
theorem construct_encode_roundtrip_spec (id : Nat) (name : String) :
    (System.construct id name).system_id = id ∧
    (System.construct id name).name = name ∧
    ∃ s, decodeSystem (System.construct id name).encode = .ok s ∧
      s.system_id = id ∧ s.name = name :=
  ⟨rfl, rfl, System.construct id name, rfl, rfl, rfl⟩

theorem stepField_preserve (σ σ2 : Slots) (k : String) (v : Json)
    (h : stepField σ k v = .ok σ2) :
    (k ≠ "system_id" → σ2.sid = σ.sid) ∧
    (k ≠ "name" → σ2.nm = σ.nm) ∧
    (k ≠ "position" → σ2.pos = σ.pos) ∧
    (k ≠ "security_status" → σ2.sec = σ.sec) ∧
    (k ≠ "stargates" → σ2.sg = σ.sg) := by
  simp only [stepField] at h
  split_ifs at h with h1 h2 h3 h4 h5
  · cases hp : putSlot "system_id" σ.sid (decodeUsize v) with
    | ok o =>
      rw [hp] at h
      injection h with h6
      subst h6
      exact ⟨fun hk => absurd h1 hk, fun _ => rfl, fun _ => rfl, fun _ => rfl,
        fun _ => rfl⟩
    | error e => rw [hp] at h; simp at h
  · cases hp : putSlot "name" σ.nm (decodeString v) with
    | ok o =>
      rw [hp] at h
      injection h with h6
      subst h6
      exact ⟨fun _ => rfl, fun hk => absurd h2 hk, fun _ => rfl, fun _ => rfl,
        fun _ => rfl⟩
    | error e => rw [hp] at h; simp at h
  · cases hp : putSlot "position" σ.pos (decodePosition v) with
    | ok o =>
      rw [hp] at h
      injection h with h6
      subst h6
      exact ⟨fun _ => rfl, fun _ => rfl, fun hk => absurd h3 hk, fun _ => rfl,
        fun _ => rfl⟩
    | error e => rw [hp] at h; simp at h
  · cases hp : putSlot "security_status" σ.sec (decodeJNum v) with
    | ok o =>
      rw [hp] at h
      injection h with h6
      subst h6
      exact ⟨fun _ => rfl, fun _ => rfl, fun _ => rfl, fun hk => absurd h4 hk,
        fun _ => rfl⟩
    | error e => rw [hp] at h; simp at h
  · cases hp : putSlot "stargates" σ.sg (decodeUsizeList v) with
    | ok o =>
      rw [hp] at h
      injection h with h6
      subst h6
      exact ⟨fun _ => rfl, fun _ => rfl, fun _ => rfl, fun _ => rfl,
        fun hk => absurd h5 hk⟩
    | error e => rw [hp] at h; simp at h
  · injection h with h6
    subst h6
    exact ⟨fun _ => rfl, fun _ => rfl, fun _ => rfl, fun _ => rfl, fun _ => rfl⟩

theorem decodeSystemFields_keys :
    ∀ (fields : List (String × Json)) (σ : Slots) (s : System),
      decodeSystemFields σ fields = .ok s →
      (σ.sid = none → "system_id" ∈ fields.map Prod.fst) ∧
      (σ.nm = none → "name" ∈ fields.map Prod.fst) ∧
      (σ.pos = none → "position" ∈ fields.map Prod.fst) ∧
      (σ.sec = none → "security_status" ∈ fields.map Prod.fst) ∧
      (σ.sg = none → "stargates" ∈ fields.map Prod.fst) := by
  intro fields
  induction fields with
  | nil =>
    intro σ s h
    obtain ⟨osid, onm, opos, osec, osg⟩ := σ
    cases osid <;> cases onm <;> cases opos <;> cases osec <;> cases osg <;>
      simp_all [decodeSystemFields]
  | cons p rest ih =>
    obtain ⟨k, v⟩ := p
    intro σ s h
    simp only [decodeSystemFields] at h
    cases hs : stepField σ k v with
    | error e => rw [hs] at h; simp at h
    | ok σ2 =>
      rw [hs] at h
      have IH := ih σ2 s h
      have P := stepField_preserve σ σ2 k v hs
      refine ⟨?_, ?_, ?_, ?_, ?_⟩
      · intro h0
        by_cases hk : k = "system_id"
        · subst hk; exact List.mem_cons_self _ _
        · exact List.mem_cons_of_mem _ (IH.1 ((P.1 hk).trans h0))
      · intro h0
        by_cases hk : k = "name"
        · subst hk; exact List.mem_cons_self _ _
        · exact List.mem_cons_of_mem _ (IH.2.1 ((P.2.1 hk).trans h0))
      · intro h0
        by_cases hk : k = "position"
        · subst hk; exact List.mem_cons_self _ _
        · exact List.mem_cons_of_mem _ (IH.2.2.1 ((P.2.2.1 hk).trans h0))
      · intro h0
        by_cases hk : k = "security_status"
        · subst hk; exact List.mem_cons_self _ _
        · exact List.mem_cons_of_mem _ (IH.2.2.2.1 ((P.2.2.2.1 hk).trans h0))
      · intro h0
        by_cases hk : k = "stargates"
        · subst hk; exact List.mem_cons_self _ _
        · exact List.mem_cons_of_mem _ (IH.2.2.2.2 ((P.2.2.2.2 hk).trans h0))

set_option maxRecDepth 40000 in
/-- Claim C8: the decoder maps the wire field `system_id` to the
identifier and `name`, `position`, `security_status`, `stargates` to
their fields; it ignores unknown wire fields (`star_id`,
`constellation_id`, `planets`, `security_class`, `stations`) rather
than failing on them, and it fails with a decode error when a required
field is absent (every successful decode saw all five required keys)
or has the wrong type. -/
theorem parse_system_decode_spec :
    exOk? (System.parse amyPayload) = some
      { system_id := 30005311, name := "Amygnon",
        position := { x := .float (-25) 16, y := .float 30 (-1),
                      z := .float 5 (-1) },
        security_status := .float 5 (-1), stargates := [50007433] } ∧
    isOkE (System.parse missingPayload) = false ∧
    isOkE (System.parse wrongTypePayload) = false ∧
    ∀ (fields : List (String × Json)) (s : System),
      decodeSystem (.obj fields) = .ok s →
      "system_id" ∈ fields.map Prod.fst ∧
      "name" ∈ fields.map Prod.fst ∧
      "position" ∈ fields.map Prod.fst ∧
      "security_status" ∈ fields.map Prod.fst ∧
      "stargates" ∈ fields.map Prod.fst := by
  refine ⟨rfl, rfl, rfl, ?_⟩
  intro fields s h
  have IH := decodeSystemFields_keys fields ⟨none, none, none, none, none⟩ s h
  exact ⟨IH.1 rfl, IH.2.1 rfl, IH.2.2.1 rfl, IH.2.2.2.1 rfl, IH.2.2.2.2 rfl⟩

/-- Witness for claim C8's required-fields clause at a concrete field
list: a successful decode of `okFields` exposes all five required
keys. -/
theorem parse_system_decode_witness :
    "system_id" ∈ okFields.map Prod.fst ∧
    "name" ∈ okFields.map Prod.fst ∧
    "position" ∈ okFields.map Prod.fst ∧
    "security_status" ∈ okFields.map Prod.fst ∧
    "stargates" ∈ okFields.map Prod.fst :=
  parse_system_decode_spec.2.2.2 okFields
    { system_id := 1, name := "X",
      position := { x := .int 0, y := .int 0, z := .int 0 },
      security_status := .int 0, stargates := [] } rfl
